import Mathlib

/-
Verification of the hackerslides core pipeline: a shallow embedding of
src/hackerslides/parser.py and src/hackerslides/renderer.py.

Conventions of the embedding:
- Python strings are modelled as lists of characters (`Str`); the only line
  separator modelled is LF, matching the newline-delimited input format.
- Python floats are modelled as rationals; `int(x)` is truncation toward zero.
- Fallible Python code returns `PRes`; uncaught Python exceptions other than
  ParsingError (IndexError, ValueError, AttributeError) are explicit error
  values, mirroring exactly where the source would raise them.
- The renderer is modelled as a pure function from a presentation (plus the
  configuration, the available-font list and an image-size oracle standing for
  the two external tools) to the ordered list of side effects it performs.
-/

namespace Hackerslides

abbrev Str := List Char

/-- Whitespace characters that can occur inside a line (LF is the separator). -/
def pyIsSpace (c : Char) : Bool := c = ' ' || c = '\t'

/-- Python str.split with no separator: split on whitespace runs, drop empties. -/
def pySplitAux : Str → Str → List Str
  | [], acc => if acc = [] then [] else [acc.reverse]
  | c :: cs, acc =>
    if pyIsSpace c then
      (if acc = [] then [] else [acc.reverse]) ++ pySplitAux cs []
    else pySplitAux cs (c :: acc)

def pySplit (s : Str) : List Str := pySplitAux s []

/-- Python str.splitlines restricted to LF line boundaries. -/
def pySplitlines : Str → List Str
  | [] => []
  | c :: cs =>
    if c = '\n' then [] :: pySplitlines cs
    else
      match pySplitlines cs with
      | [] => [[c]]
      | l :: ls => (c :: l) :: ls

/-- Python newline.join of a list of lines. -/
def joinNl : List Str → Str
  | [] => []
  | [l] => l
  | l :: ls => l ++ '\n' :: joinNl ls

/-- Drop a single trailing LF when present. -/
def removeTrailingNl (s : Str) : Str :=
  if s.getLast? = some '\n' then s.dropLast else s

/-- Python int() truncation toward zero, on exact rationals. -/
def pyInt (q : ℚ) : ℤ := if 0 ≤ q then ⌊q⌋ else ⌈q⌉

def charDigitVal (c : Char) : ℕ := c.toNat - 48

def digitsVal (s : Str) : ℕ := s.foldl (fun a c => a * 10 + charDigitVal c) 0

/-- Python float() restricted to plain decimal literals (optional sign,
integer part, optional fraction); other inputs give none (ValueError). -/
def pyFloat (s : Str) : Option ℚ :=
  let signed : ℚ × Str :=
    match s with
    | '-' :: r => (-1, r)
    | '+' :: r => (1, r)
    | r => (1, r)
  let sign := signed.1
  let body := signed.2
  let intPart := body.takeWhile Char.isDigit
  let rest := body.dropWhile Char.isDigit
  match rest with
  | [] => if intPart = [] then none else some (sign * (digitsVal intPart : ℚ))
  | '.' :: frac =>
    if frac.all Char.isDigit ∧ (intPart ≠ [] ∨ frac ≠ []) then
      some (sign * ((digitsVal intPart : ℚ) + (digitsVal frac : ℚ) / (10 : ℚ) ^ frac.length))
    else none
  | _ => none

/-- Exceptions the parser can raise: ParsingError plus the uncaught Python
exceptions the source can hit (IndexError on chunks[0] of an empty list,
ValueError from float()/unknown option key, AttributeError on .name/.text). -/
inductive PyExc
  | parsingError (line : ℕ) (message : Str)
  | indexError
  | valueError
  | attributeError
deriving DecidableEq

inductive PRes (α : Type)
  | ok (a : α)
  | error (e : PyExc)
deriving DecidableEq

inductive SlideStyle
  | default
  | meme
deriving DecidableEq

/-- SlideOptions as used by parser.py and its tests: five independently
optional fields. -/
structure SlideOptions where
  background : Option Str := none
  foreground : Option Str := none
  cover : Option Bool := none
  style : Option SlideStyle := none
  scale : Option ℚ := none
deriving DecidableEq

inductive Slide
  | text (text : Str) (options : SlideOptions)
  | image (imagePath : Option Str) (text : Option Str) (options : SlideOptions)
  | code (codePath : Option Str) (options : SlideOptions)
deriving DecidableEq

def Slide.optionsOf : Slide → SlideOptions
  | .text _ o => o
  | .image _ _ o => o
  | .code _ o => o

def Slide.withOptions : Slide → SlideOptions → Slide
  | .text t _, o => .text t o
  | .image p tx _, o => .image p tx o
  | .code p _, o => .code p o

structure Presentation where
  slides : List Slide
deriving DecidableEq

def DEFAULT_SLIDE_OPTIONS : SlideOptions :=
  { background := some ("black").data
    foreground := some ("white").data
    cover := some false
    style := some SlideStyle.default
    scale := some 1 }

structure RawLine where
  value : Str
  index : ℕ
deriving DecidableEq

inductive ParsedLine
  | empty (index : ℕ)
  | text (t : Str) (index : ℕ)
  | includeImage (path : Str) (index : ℕ)
  | includeCode (path : Str) (index : ℕ)
  | option (key : Str) (args : List Str) (index : ℕ)
deriving DecidableEq

def ParsedLine.index : ParsedLine → ℕ
  | .empty i => i
  | .text _ i => i
  | .includeImage _ i => i
  | .includeCode _ i => i
  | .option _ _ i => i

/-- The .name attribute of the line dataclasses; OptionLine has none, so
reading it is an AttributeError. -/
def ParsedLine.lineName : ParsedLine → PRes Str
  | .empty _ => .ok ("empty line").data
  | .text _ _ => .ok ("Text line").data
  | .includeImage _ _ => .ok ("@img statement").data
  | .includeCode _ _ => .ok ("@code statement").data
  | .option _ _ _ => .error .attributeError

def ParsedLine.isEmptyLine : ParsedLine → Bool
  | .empty _ => true
  | _ => false

def ParsedLine.isTextLine : ParsedLine → Bool
  | .text _ _ => true
  | _ => false

def ParsedLine.isImageInclude : ParsedLine → Bool
  | .includeImage _ _ => true
  | _ => false

def ParsedLine.isCodeInclude : ParsedLine → Bool
  | .includeCode _ _ => true
  | _ => false

def ParsedLine.isOptionLine : ParsedLine → Bool
  | .option _ _ _ => true
  | _ => false

def startsWithCh (s : Str) (c : Char) : Bool := s.head? == some c

/-- parser._split_into_lines -/
def splitIntoLines (source : Str) : List RawLine :=
  (pySplitlines source).enum.map (fun p => RawLine.mk p.2 p.1)

/-- parser._filter_comments -/
def filterComments (lines : List RawLine) : List RawLine :=
  lines.filter (fun l => !(startsWithCh l.value '#'))

/-- parser._parse_option -/
def parseOption (line : RawLine) : PRes ParsedLine :=
  match pySplit line.value with
  | [] => .error .valueError
  | keyword :: args =>
    if keyword = (":fg").data ∨ keyword = (":bg").data ∨ keyword = (":scale").data ∨
        keyword = (":style").data then
      if args.length = 1 then .ok (.option keyword.tail args line.index)
      else .error (.parsingError line.index
        (("Expected one argument for ").data ++ keyword ++ (" statement").data))
    else if keyword = (":cover").data ∨ keyword = (":nocover").data ∨
        keyword = (":nostyle").data then
      if args.length = 0 then .ok (.option keyword.tail args line.index)
      else .error (.parsingError line.index
        (("Expected no argument for ").data ++ keyword ++ (" statement").data))
    else .error (.parsingError line.index (("Unknown keyword ").data ++ keyword))

/-- parser._parse_line -/
def parseLine (line : RawLine) : PRes ParsedLine :=
  if startsWithCh line.value '@' then
    match pySplit line.value with
    | [] => .error .valueError
    | keyword :: args =>
      if keyword = ("@img").data then
        match args with
        | [] => .error (.parsingError line.index ("No path given in @img statement").data)
        | path :: _ => .ok (.includeImage path line.index)
      else if keyword = ("@code").data then
        match args with
        | [] => .error (.parsingError line.index ("No path given in @code statement").data)
        | path :: _ => .ok (.includeCode path line.index)
      else .error (.parsingError line.index (("Unknown keyword ").data ++ keyword))
  else if startsWithCh line.value ':' then parseOption line
  else if startsWithCh line.value '\\' then .ok (.text line.value.tail line.index)
  else if line.value.all pyIsSpace then .ok (.empty line.index)
  else .ok (.text line.value line.index)

/-- One step of the option accumulation in parser._parse_options. The source
also sets a stray instance attribute options.meme in the style branch; it is
not a dataclass field and does not influence anything downstream. -/
def applyOption (options : SlideOptions) (key : Str) (args : List Str) (idx : ℕ) :
    PRes SlideOptions :=
  if key = ("fg").data then
    match args with
    | a :: _ => .ok { options with foreground := some a }
    | [] => .error .indexError
  else if key = ("bg").data then
    match args with
    | a :: _ => .ok { options with background := some a }
    | [] => .error .indexError
  else if key = ("scale").data then
    match args with
    | a :: _ =>
      match pyFloat a with
      | some q => .ok { options with scale := some q }
      | none => .error .valueError
    | [] => .error .indexError
  else if key = ("cover").data then .ok { options with cover := some true }
  else if key = ("nocover").data then .ok { options with cover := some false }
  else if key = ("style").data then
    match args with
    | a :: _ =>
      if a = ("meme").data then .ok { options with style := some SlideStyle.meme }
      else .error (.parsingError idx (("Unknown style ").data ++ a))
    | [] => .error .indexError
  else if key = ("nostyle").data then .ok { options with style := some SlideStyle.default }
  else .error .valueError

/-- parser._parse_options: extract option lines into an options record,
keeping the remaining lines in order. -/
def parseOptionsGo : List ParsedLine → SlideOptions → PRes (List ParsedLine × SlideOptions)
  | [], options => .ok ([], options)
  | .option key args idx :: rest, options =>
    match applyOption options key args idx with
    | .error e => .error e
    | .ok o2 => parseOptionsGo rest o2
  | l :: rest, options =>
    match parseOptionsGo rest options with
    | .error e => .error e
    | .ok (ls, o) => .ok (l :: ls, o)

def parseOptions (chunk : List ParsedLine) : PRes (List ParsedLine × SlideOptions) :=
  parseOptionsGo chunk {}

/-- parser._with_fallback, field by field. -/
def pick {α : Type} (a b : Option α) : Option α :=
  match a with
  | some v => some v
  | none => b

def withFallback (options fallback : SlideOptions) : SlideOptions :=
  { background := pick options.background fallback.background
    foreground := pick options.foreground fallback.foreground
    cover := pick options.cover fallback.cover
    style := pick options.style fallback.style
    scale := pick options.scale fallback.scale }

/-- parser._strip_escape_char_for_line -/
def stripEscapeCharForLine (s : Str) : Str :=
  match s with
  | c :: rest => if c = '\\' then rest else c :: rest
  | [] => []

/-- parser._strip_escape_char_and_join -/
def stripEscapeCharAndJoin (texts : List Str) : Str :=
  joinNl (texts.map stripEscapeCharForLine)

/-- Reading .text off each chunk line for the text-slide branch; any non-text
line would be an AttributeError in the source. -/
def collectTexts : List ParsedLine → PRes (List Str)
  | [] => .ok []
  | .text t _ :: rest =>
    match collectTexts rest with
    | .error e => .error e
    | .ok ts => .ok (t :: ts)
  | _ :: _ => .error .attributeError

def isOptionOnlyChunk (chunk : List ParsedLine) : Bool :=
  chunk.all ParsedLine.isOptionLine

def isImageChunk (chunk : List ParsedLine) : Bool :=
  chunk.any ParsedLine.isImageInclude

def isCodeChunk (chunk : List ParsedLine) : Bool :=
  chunk.any ParsedLine.isCodeInclude

/-- Loop body of parser._parse_image_chunk: the two-line meme check uses the
accumulated text count, the duplicate check the already-seen image path. -/
def parseImageChunkGo :
    List ParsedLine → Option Str → List Str → Bool → PRes (Option Str × List Str)
  | [], imagePath, texts, _ => .ok (imagePath, texts)
  | .includeImage path idx :: rest, imagePath, texts, isMeme =>
    match imagePath with
    | some _ => .error (.parsingError idx ("Only one @img statement per slide is allowed").data)
    | none => parseImageChunkGo rest (some path) texts isMeme
  | .text t idx :: rest, imagePath, texts, isMeme =>
    if isMeme = true ∧ 2 ≤ texts.length then
      .error (.parsingError idx ("Image slide with style meme cannot have more than 2 lines of text").data)
    else parseImageChunkGo rest imagePath (texts ++ [t]) isMeme
  | l :: _, _, _, _ =>
    match l.lineName with
    | .error e => .error e
    | .ok n => .error (.parsingError l.index (n ++ (" not supported in image slide").data))

/-- parser._parse_image_chunk -/
def parseImageChunk (chunk : List ParsedLine) (isMeme : Bool) : PRes Slide :=
  match parseImageChunkGo chunk none [] isMeme with
  | .error e => .error e
  | .ok (imagePath, texts) =>
    let j := stripEscapeCharAndJoin texts
    .ok (Slide.image imagePath (if j = [] then none else some j) {})

/-- parser._parse_code_chunk -/
def parseCodeChunkGo : List ParsedLine → Option Str → PRes (Option Str)
  | [], codePath => .ok codePath
  | .includeCode path idx :: rest, codePath =>
    match codePath with
    | some _ => .error (.parsingError idx ("Only one @code statement per slide is allowed").data)
    | none => parseCodeChunkGo rest (some path)
  | l :: _, _ =>
    match l.lineName with
    | .error e => .error e
    | .ok n => .error (.parsingError l.index (n ++ (" not supported in code slide").data))

def parseCodeChunk (chunk : List ParsedLine) : PRes Slide :=
  match parseCodeChunkGo chunk none with
  | .error e => .error e
  | .ok codePath => .ok (Slide.code codePath {})

/-- The slide-kind dispatch inside parser._parse_chunk_to_slide, after the
option lines have been stripped; note the meme test uses the slide-local
options, before the fallback cascade is applied. -/
def buildSlide (chunk : List ParsedLine) (options : SlideOptions) : PRes Slide :=
  if isImageChunk chunk then
    parseImageChunk chunk (options.style = some SlideStyle.meme)
  else if isCodeChunk chunk then parseCodeChunk chunk
  else
    match collectTexts chunk with
    | .error e => .error e
    | .ok ts => .ok (Slide.text (stripEscapeCharAndJoin ts) {})

/-- parser._parse_chunk_to_slide -/
def parseChunkToSlide (chunk : List ParsedLine) (presentationDefaultSlideOptions : SlideOptions) :
    PRes Slide :=
  match parseOptions chunk with
  | .error e => .error e
  | .ok (chunk2, options) =>
    match buildSlide chunk2 options with
    | .error e => .error e
    | .ok s => .ok (s.withOptions (withFallback options presentationDefaultSlideOptions))

/-- parser._split_into_chunks -/
def splitIntoChunksGo : List ParsedLine → List ParsedLine → List (List ParsedLine)
  | [], current => if current = [] then [] else [current]
  | l :: rest, current =>
    if l.isEmptyLine then
      (if current = [] then [] else [current]) ++ splitIntoChunksGo rest []
    else splitIntoChunksGo rest (current ++ [l])

def splitIntoChunks (lines : List ParsedLine) : List (List ParsedLine) :=
  splitIntoChunksGo lines []

/-- Fail-fast list traversal, mirroring a Python list comprehension over a
fallible function. -/
def mapPRes {α β : Type} (f : α → PRes β) : List α → PRes (List β)
  | [] => .ok []
  | a :: as =>
    match f a with
    | .error e => .error e
    | .ok b =>
      match mapPRes f as with
      | .error e => .error e
      | .ok bs => .ok (b :: bs)

/-- The slide-building loop at the end of parser.parse, against the given
presentation-level options. -/
def assembleSlides (chunks : List (List ParsedLine)) (presentationOptions : SlideOptions) :
    PRes Presentation :=
  match mapPRes (fun c => parseChunkToSlide c
      (withFallback presentationOptions DEFAULT_SLIDE_OPTIONS)) chunks with
  | .error e => .error e
  | .ok slides => .ok ⟨slides⟩

/-- The chunk-level part of parser.parse. Accessing chunks[0] of an empty
chunk list is the uncaught IndexError of the source. -/
def parseChunks : List (List ParsedLine) → PRes Presentation
  | [] => .error .indexError
  | first :: rest =>
    if isOptionOnlyChunk first then
      match parseOptions first with
      | .error e => .error e
      | .ok (_, opts) => assembleSlides rest opts
    else assembleSlides (first :: rest) {}

/-- parser.parse -/
def parse (source : Str) : PRes Presentation :=
  match mapPRes parseLine (filterComments (splitIntoLines source)) with
  | .error e => .error e
  | .ok parsedLines => parseChunks (splitIntoChunks parsedLines)

/-! ## Renderer embedding (src/hackerslides/renderer.py)

The renderer runs on presentations whose options are fully resolved by the
cascade (cascade totality is proved below), so it is embedded over slides
carrying a resolved options record. External collaborators are parameters:
the list of font names the image tool reports, and an oracle giving the
native pixel size of an image path (the identify call). Numeric command
arguments are kept structured instead of formatted into strings.
-/

structure Configuration where
  path : Str
  resolution : ℤ × ℤ
deriving DecidableEq

def Configuration.width (c : Configuration) : ℤ := c.resolution.1

def Configuration.height (c : Configuration) : ℤ := c.resolution.2

structure ResolvedOptions where
  background : Str
  foreground : Str
  cover : Bool
  style : SlideStyle
  scale : ℚ
deriving DecidableEq

inductive RSlide
  | text (text : Str) (options : ResolvedOptions)
  | image (imagePath : Str) (text : Option Str) (options : ResolvedOptions)
  | code (codePath : Str) (options : ResolvedOptions)
deriving DecidableEq

structure RPresentation where
  slides : List RSlide
deriving DecidableEq

/-- Renderer exceptions: the explicit ValueError of _render_meme_text, and the
IndexError it would hit on a caption with zero lines. -/
inductive RErr
  | valueError (msg : Str)
  | indexError
deriving DecidableEq

inductive RRes (α : Type)
  | ok (a : α)
  | error (e : RErr)
deriving DecidableEq

/-- One argument handed to an external tool. Tokens whose text embeds a
computed number keep the number structured. -/
inductive Arg
  | s (v : Str)
  | size (w h : ℚ)
  | sizeCover (w h : ℚ)
  | num (v : ℤ)
  | offsetUp (y : ℤ)
  | offsetDown (y : ℤ)
  | label (t : Str)
  | xc (color : Str)
deriving DecidableEq

inductive Effect
  | exec (cmd : List Arg)
  | rmtreeIfExists (path : Str)
  | makedirs (path : Str)
deriving DecidableEq

def TEXT_FONTS : List Str := [("DejaVu-Sans").data, ("Roboto").data, ("Ubuntu").data]

def CODE_FONTS : List Str :=
  [("Source-Code-Pro").data, ("Ubuntu-Mono").data, ("DeJaVu-Sans-Mono").data]

def MEME_FONTS : List Str := [("Impact").data]

/-- renderer._get_best_font over the given available-font list. -/
def getBestFont (available : List Str) (choices : List Str) : Option Str :=
  choices.find? (fun c => available.contains c)

def fontArgs (flag : Str) (font : Option Str) : List Arg :=
  match font with
  | some f => [Arg.s flag, Arg.s f]
  | none => []

/-- Decimal digits of a natural number, zero padded to width 3 as by
a 03d format. -/
def pad3 (n : ℕ) : Str :=
  let d := Nat.toDigits 10 n
  List.replicate (3 - d.length) '0' ++ d

def slideFilename (i : ℕ) : Str := ("out/slide_").data ++ pad3 i ++ (".png").data

def codeFilename (i : ℕ) : Str := ("tmp/slide_").data ++ pad3 i ++ ("_code.png").data

/-- Python str.replace of the single character dash by a space. -/
def replaceDash (s : Str) : Str := s.map (fun c => if c = '-' then ' ' else c)

/-- renderer._background_size: the canvas, or the largest aspect-preserving
rectangle of the image inside the canvas when an image size is known and
cover is off. -/
def backgroundSize (cfg : Configuration) (imageSize : Option (ℤ × ℤ)) (cover : Bool) :
    ℤ × ℤ :=
  match imageSize, cover with
  | none, _ => (cfg.width, cfg.height)
  | some _, true => (cfg.width, cfg.height)
  | some (imW, imH), false =>
    (min cfg.width (pyInt ((cfg.height : ℚ) * (imW : ℚ) / (imH : ℚ))),
     min cfg.height (pyInt ((cfg.width : ℚ) * (imH : ℚ) / (imW : ℚ))))

/-- renderer._scaled_size -/
def scaledSize (cfg : Configuration) (imageSize : Option (ℤ × ℤ)) (cover : Bool)
    (scale : ℚ) : ℚ × ℚ :=
  let wh := backgroundSize cfg imageSize cover
  ((wh.1 : ℚ) * scale, (wh.2 : ℚ) * scale)

/-- renderer._render_background -/
def renderBackground (cfg : Configuration) (o : ResolvedOptions) : List Arg :=
  [Arg.s ("convert").data, Arg.s ("-size").data,
   Arg.size (cfg.width : ℚ) (cfg.height : ℚ), Arg.xc o.background]

/-- renderer._render_text -/
def renderTextArgs (fonts : List Str) (text : Option Str) (foreground : Str)
    (size : ℚ × ℚ) : List Arg :=
  match text with
  | none => []
  | some t =>
    [Arg.s ("-size").data, Arg.size size.1 size.2,
     Arg.s ("-background").data, Arg.s ("transparent").data,
     Arg.s ("-fill").data, Arg.s foreground] ++
    fontArgs ("-font").data (getBestFont fonts TEXT_FONTS) ++
    [Arg.s ("-gravity").data, Arg.s ("Center").data, Arg.label t,
     Arg.s ("-composite").data]

/-- renderer._render_meme_text: w and h are the footprint from
_background_size; scale is the resolved scale option. -/
def renderMemeTextArgs (fonts : List Str) (text : Option Str) (scale : ℚ)
    (w h : ℤ) : RRes (List Arg) :=
  match text with
  | none => .ok []
  | some t =>
    let lines := pySplitlines t
    if 2 < lines.length then
      .error (.valueError ("Cannot render a meme with more than 2 lines of text").data)
    else
      let lines := if lines.length = 1 then lines ++ [[]] else lines
      match lines with
      | [l0, l1] =>
        let scaledH : ℚ := (h : ℚ) / 6 * scale
        let strokewidth : ℤ := pyInt (((min w h : ℤ) : ℚ) * scale / 100)
        let offsetY : ℤ := pyInt (((h : ℚ) - scaledH) / 2)
        let common : List Arg :=
          [Arg.s ("-size").data, Arg.size (w : ℚ) scaledH,
           Arg.s ("-background").data, Arg.s ("transparent").data,
           Arg.s ("-fill").data, Arg.s ("white").data,
           Arg.s ("-stroke").data, Arg.s ("black").data,
           Arg.s ("-strokewidth").data, Arg.num strokewidth] ++
          fontArgs ("-font").data (getBestFont fonts MEME_FONTS)
        .ok (common ++
          [Arg.s ("-gravity").data, Arg.s ("Center").data, Arg.label l0,
           Arg.s ("-geometry").data, Arg.offsetUp offsetY, Arg.s ("-composite").data] ++
          common ++
          [Arg.s ("-gravity").data, Arg.s ("Center").data, Arg.label l1,
           Arg.s ("-geometry").data, Arg.offsetDown offsetY, Arg.s ("-composite").data])
      | _ => .error .indexError

/-- renderer._render_image -/
def renderImageArgs (cfg : Configuration) (path : Str) (cover : Bool) : List Arg :=
  [Arg.s ("-background").data, Arg.s ("transparent").data,
   Arg.s ("-gravity").data, Arg.s ("Center").data, Arg.s path,
   Arg.s ("-resize").data,
   (if cover then Arg.sizeCover (cfg.width : ℚ) (cfg.height : ℚ)
    else Arg.size (cfg.width : ℚ) (cfg.height : ℚ)),
   Arg.s ("-extent").data, Arg.size (cfg.width : ℚ) (cfg.height : ℚ),
   Arg.s ("-composite").data]

/-- renderer._render_code_slide: the pygmentize invocation producing the
temporary raster, then the compositing convert invocation. -/
def renderCodeSlideEffects (cfg : Configuration) (fonts : List Str) (i : ℕ)
    (codePath : Str) (o : ResolvedOptions) : List Effect :=
  let codeFile := codeFilename i
  let fontLine : List Arg :=
    match getBestFont fonts CODE_FONTS with
    | some f => [Arg.s ("-O").data, Arg.s (("font_name=").data ++ replaceDash f)]
    | none => []
  [Effect.exec
    ([Arg.s ("pygmentize").data,
      Arg.s ("-O").data, Arg.s ("line_numbers=False").data,
      Arg.s ("-O").data, Arg.s ("font_size=100").data,
      Arg.s ("-O").data, Arg.s ("style=vim").data,
      Arg.s ("-O").data, Arg.s ("image_pad=50").data] ++ fontLine ++
     [Arg.s ("-o").data, Arg.s codeFile, Arg.s codePath]),
   Effect.exec
    (renderBackground cfg o ++
     [Arg.s ("-background").data, Arg.s ("transparent").data,
      Arg.s ("-gravity").data, Arg.s ("Center").data, Arg.s codeFile,
      Arg.s ("-adaptive-resize").data, Arg.size (cfg.width : ℚ) (cfg.height : ℚ),
      Arg.s ("-extent").data, Arg.size (cfg.width : ℚ) (cfg.height : ℚ),
      Arg.s ("-composite").data, Arg.s (slideFilename i)])]

/-- ImageMagickSlideRenderer.render for one slide: the ordered effects it
performs, and the renderer exception aborting the run, if any. Image slides
first run identify to learn the image size (the oracle answers it). -/
def renderSlideEffects (cfg : Configuration) (fonts : List Str)
    (sizeOracle : Str → ℤ × ℤ) (slide : RSlide) (i : ℕ) :
    List Effect × Option RErr :=
  match slide with
  | .text t o =>
    ([Effect.exec (renderBackground cfg o ++
        renderTextArgs fonts (some t) o.foreground (scaledSize cfg none o.cover o.scale) ++
        [Arg.s (slideFilename i)])], none)
  | .image p t o =>
    let identifyEff := Effect.exec
      [Arg.s ("identify").data, Arg.s ("-format").data, Arg.s ("%w %h").data, Arg.s p]
    let textCmd : RRes (List Arg) :=
      if o.style = SlideStyle.meme then
        let wh := backgroundSize cfg (some (sizeOracle p)) o.cover
        renderMemeTextArgs fonts t o.scale wh.1 wh.2
      else
        .ok (renderTextArgs fonts t o.foreground
          (scaledSize cfg (some (sizeOracle p)) o.cover o.scale))
    match textCmd with
    | .error e => ([identifyEff], some e)
    | .ok tc =>
      ([identifyEff,
        Effect.exec (renderBackground cfg o ++ renderImageArgs cfg p o.cover ++ tc ++
          [Arg.s (slideFilename i)])], none)
  | .code p o => (renderCodeSlideEffects cfg fonts i p o, none)

/-- The per-slide loop of ImageMagickRenderer.render, starting at index i;
a renderer exception aborts the remaining slides. -/
def renderLoop (cfg : Configuration) (fonts : List Str) (sizeOracle : Str → ℤ × ℤ) :
    List RSlide → ℕ → List Effect × Option RErr
  | [], _ => ([], none)
  | s :: rest, i =>
    let r := renderSlideEffects cfg fonts sizeOracle s i
    match r.2 with
    | some e => (r.1, some e)
    | none =>
      let r2 := renderLoop cfg fonts sizeOracle rest (i + 1)
      (r.1 ++ r2.1, r2.2)

/-- ImageMagickRenderer.render: reset the output directory, then render each
slide in ascending index order. -/
def render (cfg : Configuration) (fonts : List Str) (sizeOracle : Str → ℤ × ℤ)
    (p : RPresentation) : List Effect × Option RErr :=
  let r := renderLoop cfg fonts sizeOracle p.slides 0
  (Effect.rmtreeIfExists ("out").data :: Effect.makedirs ("out").data :: r.1, r.2)

/-- The effect block of each slide, paired with its index, in order. -/
def renderBlocks (cfg : Configuration) (fonts : List Str) (sizeOracle : Str → ℤ × ℤ)
    (p : RPresentation) : List (List Effect) :=
  (p.slides.enumFrom 0).map (fun q => (renderSlideEffects cfg fonts sizeOracle q.2 q.1).1)

/-! ## Shared lemmas -/

theorem pick_idem {α : Type} (a b : Option α) : pick a (pick a b) = pick a b := by
  cases a <;> rfl

theorem pick_isSome {α : Type} (a b : Option α) (h : b.isSome = true) :
    (pick a b).isSome = true := by
  cases a <;> simp [pick, h]

/-- A fully resolved options record has every field set. -/
def optionsTotal (o : SlideOptions) : Prop :=
  o.background.isSome = true ∧ o.foreground.isSome = true ∧ o.cover.isSome = true ∧
    o.style.isSome = true ∧ o.scale.isSome = true

theorem DEFAULT_total : optionsTotal DEFAULT_SLIDE_OPTIONS :=
  ⟨rfl, rfl, rfl, rfl, rfl⟩

theorem withFallback_total (o f : SlideOptions) (h : optionsTotal f) :
    optionsTotal (withFallback o f) := by
  obtain ⟨h1, h2, h3, h4, h5⟩ := h
  exact ⟨pick_isSome _ _ h1, pick_isSome _ _ h2, pick_isSome _ _ h3,
    pick_isSome _ _ h4, pick_isSome _ _ h5⟩

theorem optionsOf_withOptions (s : Slide) (o : SlideOptions) :
    (s.withOptions o).optionsOf = o := by
  cases s <;> rfl

theorem mapPRes_ok_mem {α β : Type} {f : α → PRes β} :
    ∀ {l : List α} {ys : List β}, mapPRes f l = .ok ys → ∀ y ∈ ys, ∃ x ∈ l, f x = .ok y := by
  intro l
  induction l with
  | nil =>
    intro ys h y hy
    simp only [mapPRes] at h
    cases h
    simp at hy
  | cons a as ih =>
    intro ys h y hy
    simp only [mapPRes] at h
    cases hfa : f a with
    | error e => rw [hfa] at h; cases h
    | ok b =>
      rw [hfa] at h
      cases hrest : mapPRes f as with
      | error e => rw [hrest] at h; cases h
      | ok bs =>
        rw [hrest] at h
        cases h
        rcases List.mem_cons.mp hy with hy | hy
        · exact ⟨a, List.mem_cons_self a as, hy ▸ hfa⟩
        · obtain ⟨x, hx, hfx⟩ := ih hrest y hy
          exact ⟨x, List.mem_cons_of_mem a hx, hfx⟩

theorem mapPRes_congr_ok {α β : Type} {f : α → PRes β} {g : α → β} :
    ∀ {l : List α}, (∀ x ∈ l, f x = .ok (g x)) → mapPRes f l = .ok (l.map g) := by
  intro l
  induction l with
  | nil => intro _; rfl
  | cons a as ih =>
    intro h
    simp only [mapPRes, h a (List.mem_cons_self a as),
      ih (fun x hx => h x (List.mem_cons_of_mem a hx)), List.map_cons]

theorem parseChunkToSlide_ok_options {chunk : List ParsedLine} {d : SlideOptions} {s : Slide}
    (h : parseChunkToSlide chunk d = .ok s) :
    ∃ rest lo, parseOptions chunk = .ok (rest, lo) ∧ s.optionsOf = withFallback lo d := by
  unfold parseChunkToSlide at h
  split at h
  · cases h
  · rename_i chunk2 options hpo
    split at h
    · cases h
    · rename_i s0 hb
      cases h
      exact ⟨chunk2, options, hpo, optionsOf_withOptions s0 _⟩

theorem mem_enumFrom_snd {α : Type} :
    ∀ (xs : List α) (n : ℕ) (p : ℕ × α), p ∈ List.enumFrom n xs → p.2 ∈ xs := by
  intro xs
  induction xs with
  | nil => intro n p hp; simp [List.enumFrom] at hp
  | cons x xs ih =>
    intro n p hp
    rcases List.mem_cons.mp hp with h | h
    · subst h; exact List.mem_cons_self x xs
    · exact List.mem_cons_of_mem x (ih (n + 1) p h)

theorem assembleSlides_ok_slides {chunks : List (List ParsedLine)} {opts : SlideOptions}
    {p : Presentation} (h : assembleSlides chunks opts = .ok p) :
    ∀ s ∈ p.slides, ∃ chunk opts2,
      parseChunkToSlide chunk (withFallback opts2 DEFAULT_SLIDE_OPTIONS) = .ok s := by
  unfold assembleSlides at h
  split at h
  · cases h
  · rename_i slides hm
    cases h
    intro s hs
    obtain ⟨c, _, hc⟩ := mapPRes_ok_mem hm s hs
    exact ⟨c, opts, hc⟩

theorem parseChunks_ok_slides {chunks : List (List ParsedLine)} {p : Presentation}
    (h : parseChunks chunks = .ok p) :
    ∀ s ∈ p.slides, ∃ chunk opts,
      parseChunkToSlide chunk (withFallback opts DEFAULT_SLIDE_OPTIONS) = .ok s := by
  cases chunks with
  | nil => simp [parseChunks] at h
  | cons first rest =>
    simp only [parseChunks] at h
    by_cases hopt : isOptionOnlyChunk first = true
    · rw [if_pos hopt] at h
      split at h
      · cases h
      · exact assembleSlides_ok_slides h
    · rw [if_neg hopt] at h
      exact assembleSlides_ok_slides h

/-- Every slide of a successful parse comes from parseChunkToSlide against the
presentation-level fallback tier. -/
theorem parse_ok_slides {src : Str} {p : Presentation} (h : parse src = .ok p) :
    ∀ s ∈ p.slides, ∃ chunk opts,
      parseChunkToSlide chunk (withFallback opts DEFAULT_SLIDE_OPTIONS) = .ok s := by
  unfold parse at h
  split at h
  · cases h
  · exact parseChunks_ok_slides h

theorem withFallback_none_left (f : SlideOptions) : withFallback {} f = f := rfl

/-! ## C3 -/

/-- Claim C3: cascade totality and correctness. Every slide of a parsed
presentation carries fully set options; a slide's options are the slide-local
options resolved against the presentation tier; the resolved record picks,
field by field, the local value if set, else the presentation value if set,
else the fixed default; and a slide with no local directives resolves to the
presentation tier itself. -/
theorem cascade_totality_and_correctness :
    (∀ src p, parse src = .ok p → ∀ s ∈ p.slides, optionsTotal s.optionsOf) ∧
    (∀ chunk d s rest lo, parseChunkToSlide chunk d = .ok s →
      parseOptions chunk = .ok (rest, lo) → s.optionsOf = withFallback lo d) ∧
    (∀ lo po, withFallback lo (withFallback po DEFAULT_SLIDE_OPTIONS) =
      { background := pick lo.background (pick po.background (some ("black").data))
        foreground := pick lo.foreground (pick po.foreground (some ("white").data))
        cover := pick lo.cover (pick po.cover (some false))
        style := pick lo.style (pick po.style (some SlideStyle.default))
        scale := pick lo.scale (pick po.scale (some 1)) }) ∧
    (∀ po, withFallback {} (withFallback po DEFAULT_SLIDE_OPTIONS) =
      withFallback po DEFAULT_SLIDE_OPTIONS) := by
  refine ⟨?_, ?_, ?_, ?_⟩
  · intro src p hp s hs
    obtain ⟨chunk, opts, hcs⟩ := parse_ok_slides hp s hs
    obtain ⟨rest, lo, _, hopt⟩ := parseChunkToSlide_ok_options hcs
    rw [hopt]
    exact withFallback_total _ _ (withFallback_total _ _ DEFAULT_total)
  · intro chunk d s rest lo hcs hpo
    obtain ⟨rest2, lo2, hpo2, hopt⟩ := parseChunkToSlide_ok_options hcs
    rw [hpo] at hpo2
    cases hpo2
    exact hopt
  · intro lo po
    rfl
  · intro po
    exact withFallback_none_left _

/-- Witness for C3 at the one-slide input Hello: the slide options are total
and equal the twice-resolved empty local options. -/
theorem cascade_totality_and_correctness_witness :
    optionsTotal ((Slide.text ("Hello").data DEFAULT_SLIDE_OPTIONS).optionsOf) ∧
    (Slide.text ("Hello").data (withFallback {} (withFallback {} DEFAULT_SLIDE_OPTIONS))).optionsOf
      = withFallback {} (withFallback {} DEFAULT_SLIDE_OPTIONS) :=
  ⟨cascade_totality_and_correctness.1 ("Hello\n").data
      ⟨[Slide.text ("Hello").data DEFAULT_SLIDE_OPTIONS]⟩ (by decide) _ (by decide),
   cascade_totality_and_correctness.2.1 [ParsedLine.text ("Hello").data 0]
      (withFallback {} DEFAULT_SLIDE_OPTIONS) _ [ParsedLine.text ("Hello").data 0] {}
      (by decide) (by decide)⟩

/-! ## C9 -/

/-- Claim C9: the merge operation of the cascade is idempotent in its
fallback argument: resolving against an already once-resolved fallback
changes nothing. -/
theorem withFallback_idempotent (lo fb : SlideOptions) :
    withFallback lo (withFallback lo fb) = withFallback lo fb := by
  simp [withFallback, pick_idem]

/-! ## C10 -/

theorem startsWithCh_of_all_space {l : Str} {c : Char} (hall : l.all pyIsSpace = true)
    (hc : pyIsSpace c = false) : startsWithCh l c = false := by
  cases l with
  | nil => rfl
  | cons x xs =>
    have hx : pyIsSpace x = true := by
      have := List.all_eq_true.mp hall x (List.mem_cons_self x xs)
      exact this
    simp only [startsWithCh, List.head?]
    by_cases hxc : x = c
    · rw [hxc] at hx; rw [hx] at hc; cases hc
    · simp [hxc]

theorem parseLine_blank {l : RawLine} (hall : l.value.all pyIsSpace = true) :
    parseLine l = .ok (.empty l.index) := by
  unfold parseLine
  rw [startsWithCh_of_all_space hall (by decide), startsWithCh_of_all_space hall (by decide),
    startsWithCh_of_all_space hall (by decide), hall]
  rfl

theorem splitIntoChunksGo_all_empty :
    ∀ {ls : List ParsedLine}, (∀ l ∈ ls, l.isEmptyLine = true) →
      splitIntoChunksGo ls [] = [] := by
  intro ls
  induction ls with
  | nil => intro _; rfl
  | cons l rest ih =>
    intro h
    have hl : l.isEmptyLine = true := h l (List.mem_cons_self l rest)
    simp only [splitIntoChunksGo, hl, if_true, if_pos rfl, List.nil_append]
    exact ih (fun x hx => h x (List.mem_cons_of_mem l hx))

/-- Claim C10: an input whose lines are all blank or comments (including the
empty input) leaves the chunk list empty, and parse fails with the uncaught
IndexError from accessing the first chunk, not with a ParsingError. -/
theorem parse_blank_input_index_error :
    ∀ src : Str, (∀ l ∈ pySplitlines src, startsWithCh l '#' = true ∨ l.all pyIsSpace = true) →
      parse src = .error .indexError := by
  intro src hsrc
  have hmem : ∀ l ∈ filterComments (splitIntoLines src), l.value.all pyIsSpace = true := by
    intro l hl
    have hl2 := List.mem_filter.mp hl
    have hval : l.value ∈ pySplitlines src := by
      obtain ⟨q, hq, rfl⟩ := List.mem_map.mp hl2.1
      exact mem_enumFrom_snd _ 0 q hq
    rcases hsrc l.value hval with h | h
    · rw [h] at hl2; simp at hl2
    · exact h
  have hparsed : mapPRes parseLine (filterComments (splitIntoLines src)) =
      .ok ((filterComments (splitIntoLines src)).map (fun l => ParsedLine.empty l.index)) :=
    mapPRes_congr_ok (fun l hl => parseLine_blank (hmem l hl))
  have hchunks : splitIntoChunks ((filterComments (splitIntoLines src)).map
      (fun l => ParsedLine.empty l.index)) = [] := by
    apply splitIntoChunksGo_all_empty
    intro l hl
    obtain ⟨x, _, rfl⟩ := List.mem_map.mp hl
    rfl
  have hp : parse src = parseChunks (splitIntoChunks
      ((filterComments (splitIntoLines src)).map (fun l => ParsedLine.empty l.index))) := by
    unfold parse
    rw [hparsed]
  rw [hp, hchunks]
  rfl

/-- Witness for C10 at concrete blank and comment-only inputs. -/
theorem parse_blank_input_index_error_witness :
    parse ("# only a comment\n \n\t\n").data = .error .indexError ∧
      parse ("").data = .error .indexError :=
  ⟨parse_blank_input_index_error _ (by decide), parse_blank_input_index_error _ (by decide)⟩

/-! ## C4 -/

/-- Counterexample to C4: a line with two arguments after the @img keyword is
not a ParseError; it parses to an image slide whose path is the first
argument, the second being silently dropped. -/
theorem include_extra_args_counterexample :
    parse ("@img a b\n").data =
      .ok ⟨[Slide.image (some ("a").data) none DEFAULT_SLIDE_OPTIONS]⟩ := by
  decide

/-- Claim C4 amended: the @img and @code directives require at least one
whitespace-delimited argument: zero arguments yields the no-path ParseError,
while one or more arguments are accepted, the first becoming the path and any
further arguments being ignored. -/
theorem include_arity_amended :
    (∀ v i, startsWithCh v '@' = true → pySplit v = [("@img").data] →
      parseLine ⟨v, i⟩ = .error (.parsingError i ("No path given in @img statement").data)) ∧
    (∀ v i p restArgs, startsWithCh v '@' = true → pySplit v = ("@img").data :: p :: restArgs →
      parseLine ⟨v, i⟩ = .ok (.includeImage p i)) ∧
    (∀ v i, startsWithCh v '@' = true → pySplit v = [("@code").data] →
      parseLine ⟨v, i⟩ = .error (.parsingError i ("No path given in @code statement").data)) ∧
    (∀ v i p restArgs, startsWithCh v '@' = true → pySplit v = ("@code").data :: p :: restArgs →
      parseLine ⟨v, i⟩ = .ok (.includeCode p i)) := by
  refine ⟨?_, ?_, ?_, ?_⟩ <;>
    (first
      | (intro v i hat hsplit
         unfold parseLine
         rw [hsplit]
         simp [hat])
      | (intro v i p restArgs hat hsplit
         unfold parseLine
         rw [hsplit]
         simp [hat]))

/-- Witness for C4 amended at concrete directive lines. -/
theorem include_arity_amended_witness :
    parseLine ⟨("@img").data, 0⟩ =
      .error (.parsingError 0 ("No path given in @img statement").data) ∧
    parseLine ⟨("@img a b").data, 3⟩ = .ok (.includeImage ("a").data 3) ∧
    parseLine ⟨("@code").data, 1⟩ =
      .error (.parsingError 1 ("No path given in @code statement").data) ∧
    parseLine ⟨("@code x.py extra").data, 2⟩ = .ok (.includeCode ("x.py").data 2) :=
  ⟨include_arity_amended.1 _ 0 (by decide) (by decide),
   include_arity_amended.2.1 _ 3 (("a").data) [("b").data] (by decide) (by decide),
   include_arity_amended.2.2.1 _ 1 (by decide) (by decide),
   include_arity_amended.2.2.2 _ 2 (("x.py").data) [("extra").data] (by decide) (by decide)⟩

/-! ## C5 -/

/-- Counterexample to C5: a line beginning with two backslashes contributes
text that no longer contains any backslash at all: one is stripped at
classification and a second at join time. -/
theorem double_backslash_counterexample :
    parse ("\\\\x\n").data = .ok ⟨[Slide.text ("x").data DEFAULT_SLIDE_OPTIONS]⟩ ∧
      (("x").data).head? ≠ some '\\' := by
  exact ⟨by decide, by decide⟩

/-- Claim C5 amended: classification strips exactly one leading backslash, but
when the text lines of a slide are joined a further leading backslash is
stripped from each line, so a line beginning with two backslashes contributes
text with both removed. -/
theorem escape_strip_amended :
    (∀ s i, parseLine ⟨'\\' :: s, i⟩ = .ok (.text s i)) ∧
    (∀ s, stripEscapeCharForLine ('\\' :: s) = s) ∧
    (∀ s, s.head? ≠ some '\\' → stripEscapeCharForLine s = s) ∧
    (∀ s i, parseLine ⟨'\\' :: '\\' :: s, i⟩ = .ok (.text ('\\' :: s) i) ∧
      stripEscapeCharForLine ('\\' :: s) = s) ∧
    (∀ texts, stripEscapeCharAndJoin texts = joinNl (texts.map stripEscapeCharForLine)) := by
  have h1 : ∀ (s : Str) (i : ℕ), parseLine ⟨'\\' :: s, i⟩ = .ok (.text s i) := by
    intro s i
    rfl
  have h2 : ∀ s : Str, stripEscapeCharForLine ('\\' :: s) = s := by
    intro s
    rfl
  refine ⟨h1, h2, ?_, fun s i => ⟨h1 _ _, h2 _⟩, fun _ => rfl⟩
  intro s hs
  cases s with
  | nil => rfl
  | cons c rest =>
    have hc : ¬ c = '\\' := by
      intro hc
      exact hs (by rw [hc]; rfl)
    simp [stripEscapeCharForLine, hc]

/-- Witness for C5 amended at a concrete double-backslash line. -/
theorem escape_strip_amended_witness :
    parseLine ⟨'\\' :: '\\' :: ("x").data, 0⟩ = .ok (.text ('\\' :: ("x").data) 0) ∧
      stripEscapeCharForLine ("x").data = ("x").data :=
  ⟨(escape_strip_amended.2.2.2.1 (("x").data) 0).1,
   escape_strip_amended.2.2.1 (("x").data) (by decide)⟩

/-! ## C7 and C2: image chunk scanning -/

/-- Text lines paired with their source indices, as chunk elements. -/
def mkTexts (ts : List (Str × ℕ)) : List ParsedLine :=
  ts.map (fun q => ParsedLine.text q.1 q.2)

/-- Scanning a run of text lines only accumulates them, as long as the meme
limit is not yet hit. -/
theorem parseImageChunkGo_texts :
    ∀ (ts : List (Str × ℕ)) (rest : List ParsedLine) (path : Option Str) (acc : List Str)
      (isMeme : Bool), (isMeme = true → acc.length + ts.length ≤ 2) →
      parseImageChunkGo (mkTexts ts ++ rest) path acc isMeme =
        parseImageChunkGo rest path (acc ++ ts.map Prod.fst) isMeme := by
  intro ts
  induction ts with
  | nil => intro rest path acc isMeme _; simp [mkTexts]
  | cons t ts ih =>
    intro rest path acc isMeme h
    have hcond : ¬ (isMeme = true ∧ 2 ≤ acc.length) := by
      rintro ⟨hm, hle⟩
      have := h hm
      simp [List.length_cons] at this
      omega
    simp only [mkTexts, List.map_cons, List.cons_append, parseImageChunkGo, if_neg hcond,
      List.append_eq]
    have hnext := ih rest path (acc ++ [t.1]) isMeme (fun hm => by
      have h2 := h hm
      simp only [List.length_cons] at h2
      simp only [List.length_append, List.length_cons, List.length_nil]
      omega)
    simp only [mkTexts] at hnext
    rw [hnext, List.append_assoc]
    rfl

/-! ## C7 -/

/-- Counterexample to C7: a chunk with two @img lines separated by a @code
line fails at the @code line with a different message, not with the
one-image-only message at the second @img line. -/
theorem second_img_message_counterexample :
    parse ("@img a\n@code b\n@img c\n").data =
      .error (.parsingError 1 ("@code statement not supported in image slide").data) ∧
    ("@code statement not supported in image slide").data ≠
      ("Only one @img statement per slide is allowed").data := by
  exact ⟨by decide, by decide⟩

/-- Claim C7 amended: in a chunk whose lines up to the second @img are the
first @img and text lines only (with at most 2 of them when the local style is
meme, so that no earlier check fires), the second @img fails with the
one-image-only ParseError at its own line; on the two-line example input the
error carries line index 1. -/
theorem only_one_img_amended :
    (∀ (a b : List (Str × ℕ)) (p1 : Str) (i1 : ℕ) (p2 : Str) (i2 : ℕ)
      (rest : List ParsedLine) (isMeme : Bool),
      (isMeme = true → a.length + b.length ≤ 2) →
      parseImageChunk
        (mkTexts a ++ ParsedLine.includeImage p1 i1 ::
          (mkTexts b ++ ParsedLine.includeImage p2 i2 :: rest)) isMeme =
        .error (.parsingError i2 ("Only one @img statement per slide is allowed").data)) ∧
    parse ("@img foo.png\n@img bar.png\n").data =
      .error (.parsingError 1 ("Only one @img statement per slide is allowed").data) := by
  constructor
  · intro a b p1 i1 p2 i2 rest isMeme h
    unfold parseImageChunk
    rw [parseImageChunkGo_texts a _ none [] isMeme (fun hm => by
      have h2 := h hm
      simp only [List.length_nil]
      omega)]
    simp only [List.nil_append, parseImageChunkGo]
    rw [parseImageChunkGo_texts b _ (some p1) (a.map Prod.fst) isMeme (fun hm => by
      have h2 := h hm
      simp only [List.length_map]
      omega)]
    rfl
  · decide

/-- Witness for C7 amended at the Example 2 chunk shape. -/
theorem only_one_img_amended_witness :
    parseImageChunk
      [ParsedLine.includeImage ("foo.png").data 0, ParsedLine.includeImage ("bar.png").data 1]
      false =
      .error (.parsingError 1 ("Only one @img statement per slide is allowed").data) :=
  only_one_img_amended.1 [] [] (("foo.png").data) 0 (("bar.png").data) 1 [] false (by decide)

/-! ## C2 -/

/-- Counterexample to C2: when meme style comes only from the presentation
options chunk, an image slide with three caption lines parses successfully,
with resolved style meme, instead of failing at the third line. -/
theorem meme_presentation_style_counterexample :
    parse (":style meme\n\n@img foo.png\na\nb\nc\n").data =
      .ok ⟨[Slide.image (some ("foo.png").data) (some ("a\nb\nc").data)
        { background := some ("black").data, foreground := some ("white").data
          cover := some false, style := some SlideStyle.meme, scale := some 1 }]⟩ := by
  decide

/-- Claim C2 amended: the at-most-2-caption-lines check fires only when style
meme is set by the slide's own chunk (the check reads the slide-local options,
before the cascade): an image chunk with local meme style fails at its third
text line with the meme ParseError, and the Example 3 input fails at line
index 4; with meme style only at presentation level, parsing succeeds. -/
theorem meme_two_lines_amended :
    (∀ (p : Str) (i : ℕ) (t1 t2 t3 : Str × ℕ) (rest : List (Str × ℕ)),
      parseImageChunk (ParsedLine.includeImage p i :: mkTexts (t1 :: t2 :: t3 :: rest)) true =
        .error (.parsingError t3.2
          ("Image slide with style meme cannot have more than 2 lines of text").data)) ∧
    parse (":style meme\n@img foo.png\ntoo\nmany\nlines\n").data =
      .error (.parsingError 4
        ("Image slide with style meme cannot have more than 2 lines of text").data) := by
  constructor
  · intro p i t1 t2 t3 rest
    simp [parseImageChunk, parseImageChunkGo, mkTexts]
  · decide

/-! ## C1: meme caption geometry -/

def argSizeVal : Arg → Option (ℚ × ℚ)
  | .size w h => some (w, h)
  | _ => none

def argNumVal : Arg → Option ℤ
  | .num v => some v
  | _ => none

def argUpVal : Arg → Option ℤ
  | .offsetUp y => some y
  | _ => none

def argDownVal : Arg → Option ℤ
  | .offsetDown y => some y
  | _ => none

/-- Counterexample to C1: at footprint 1920 by 1080 and scale 1 the emitted
vertical offset is 450, not half the box height 1080 / 12 = 90. -/
theorem meme_offset_counterexample :
    (match renderMemeTextArgs [] (some ("TOP\nBOTTOM").data) 1 1920 1080 with
      | .ok args => args.filterMap argUpVal
      | .error _ => []) = [450] ∧
    (450 : ℤ) ≠ pyInt ((1080 : ℚ) / 6 * 1 / 2) ∧
    pyInt ((1080 : ℚ) / 6 * 1 / 2) = 90 := by
  have h90 : pyInt ((1080 : ℚ) / 6 * 1 / 2) = 90 := by
    rw [pyInt, if_pos (by norm_num)]
    norm_num
  have h450 : pyInt ((((1080 : ℤ) : ℚ) - ((1080 : ℤ) : ℚ) / 6 * 1) / 2) = 450 := by
    rw [pyInt, if_pos (by norm_num)]
    norm_num
  refine ⟨?_, by rw [h90]; decide, h90⟩
  show ([pyInt ((((1080 : ℤ) : ℚ) - ((1080 : ℤ) : ℚ) / 6 * 1) / 2)] : List ℤ) = [450]
  rw [h450]

/-- Claim C1 amended: each of the two caption boxes has width W and height
H / 6 times scale, the stroke width is the truncation of min(W,H) times scale
over 100, and both lines are offset from canvas center (first up, second down)
by the truncation of (H minus the box height) / 2 , which is 5 H / 12
truncated at scale 1, not H / 12. -/
theorem meme_geometry_amended :
    ∀ (fonts : List Str) (t : Str) (scale : ℚ) (w h : ℤ) (args : List Arg),
      renderMemeTextArgs fonts (some t) scale w h = .ok args →
      args.filterMap argSizeVal =
        [((w : ℚ), (h : ℚ) / 6 * scale), ((w : ℚ), (h : ℚ) / 6 * scale)] ∧
      args.filterMap argNumVal =
        [pyInt (((min w h : ℤ) : ℚ) * scale / 100), pyInt (((min w h : ℤ) : ℚ) * scale / 100)] ∧
      args.filterMap argUpVal = [pyInt (((h : ℚ) - (h : ℚ) / 6 * scale) / 2)] ∧
      args.filterMap argDownVal = [pyInt (((h : ℚ) - (h : ℚ) / 6 * scale) / 2)] := by
  intro fonts t scale w h args hok
  simp only [renderMemeTextArgs] at hok
  split at hok
  · cases hok
  · split at hok
    · rename_i l0 l1 heq
      cases hok
      cases hf : getBestFont fonts MEME_FONTS <;>
        simp [fontArgs, hf, argSizeVal, argNumVal, argUpVal, argDownVal]
    · cases hok

/-- The argument list emitted for a two-line meme caption at footprint
1920 by 1080, scale 1, with no matching font available. -/
def memeWitnessArgs : List Arg :=
  [Arg.s ("-size").data, Arg.size (((1920 : ℤ) : ℚ)) (((1080 : ℤ) : ℚ) / 6 * 1),
   Arg.s ("-background").data, Arg.s ("transparent").data,
   Arg.s ("-fill").data, Arg.s ("white").data,
   Arg.s ("-stroke").data, Arg.s ("black").data,
   Arg.s ("-strokewidth").data,
   Arg.num (pyInt (((min (1920 : ℤ) (1080 : ℤ) : ℤ) : ℚ) * 1 / 100)),
   Arg.s ("-gravity").data, Arg.s ("Center").data, Arg.label ("TOP").data,
   Arg.s ("-geometry").data,
   Arg.offsetUp (pyInt ((((1080 : ℤ) : ℚ) - ((1080 : ℤ) : ℚ) / 6 * 1) / 2)),
   Arg.s ("-composite").data,
   Arg.s ("-size").data, Arg.size (((1920 : ℤ) : ℚ)) (((1080 : ℤ) : ℚ) / 6 * 1),
   Arg.s ("-background").data, Arg.s ("transparent").data,
   Arg.s ("-fill").data, Arg.s ("white").data,
   Arg.s ("-stroke").data, Arg.s ("black").data,
   Arg.s ("-strokewidth").data,
   Arg.num (pyInt (((min (1920 : ℤ) (1080 : ℤ) : ℤ) : ℚ) * 1 / 100)),
   Arg.s ("-gravity").data, Arg.s ("Center").data, Arg.label ("BOTTOM").data,
   Arg.s ("-geometry").data,
   Arg.offsetDown (pyInt ((((1080 : ℤ) : ℚ) - ((1080 : ℤ) : ℚ) / 6 * 1) / 2)),
   Arg.s ("-composite").data]

/-- Witness for C1 amended at the concrete 1920 by 1080 caption. -/
theorem meme_geometry_amended_witness :
    memeWitnessArgs.filterMap argUpVal =
      [pyInt ((((1080 : ℤ) : ℚ) - ((1080 : ℤ) : ℚ) / 6 * 1) / 2)] ∧
    memeWitnessArgs.filterMap argSizeVal =
      [(((1920 : ℤ) : ℚ), ((1080 : ℤ) : ℚ) / 6 * 1), (((1920 : ℤ) : ℚ), ((1080 : ℤ) : ℚ) / 6 * 1)] :=
  ⟨(meme_geometry_amended [] (("TOP\nBOTTOM").data) 1 1920 1080 memeWitnessArgs rfl).2.2.1,
   (meme_geometry_amended [] (("TOP\nBOTTOM").data) 1 1920 1080 memeWitnessArgs rfl).1⟩

/-! ## C8: output directory reset and render order -/

theorem renderLoop_ok_eq (cfg : Configuration) (fonts : List Str) (oracle : Str → ℤ × ℤ) :
    ∀ (slides : List RSlide) (n : ℕ),
      (renderLoop cfg fonts oracle slides n).2 = none →
      (renderLoop cfg fonts oracle slides n).1 =
        ((slides.enumFrom n).map
          (fun q => (renderSlideEffects cfg fonts oracle q.2 q.1).1)).flatten := by
  intro slides
  induction slides with
  | nil => intro n _; rfl
  | cons s rest ih =>
    intro n hnone
    simp only [renderLoop] at hnone ⊢
    cases hE : (renderSlideEffects cfg fonts oracle s n).2 with
    | some e => rw [hE] at hnone; simp at hnone
    | none =>
      rw [hE] at hnone
      dsimp only at hnone ⊢
      simp only [List.enumFrom, List.map_cons, List.flatten_cons]
      rw [ih (n + 1) hnone]

/-- Claim C8: the trace starts with the delete-then-recreate of the output
directory; on a run with no renderer error the rest is the per-slide blocks in
ascending index order; and each error-free slide block ends with an external
invocation whose final argument is the zero-padded slide output path. -/
theorem render_dir_and_order :
    ∀ (cfg : Configuration) (fonts : List Str) (oracle : Str → ℤ × ℤ) (p : RPresentation),
      ((render cfg fonts oracle p).1.take 2 =
        [Effect.rmtreeIfExists ("out").data, Effect.makedirs ("out").data]) ∧
      ((render cfg fonts oracle p).2 = none →
        (render cfg fonts oracle p).1 =
          Effect.rmtreeIfExists ("out").data :: Effect.makedirs ("out").data ::
            (renderBlocks cfg fonts oracle p).flatten) ∧
      (∀ i s, p.slides.get? i = some s →
        (renderSlideEffects cfg fonts oracle s i).2 = none →
        ∃ cmd, (renderSlideEffects cfg fonts oracle s i).1.getLast? = some (Effect.exec cmd) ∧
          cmd.getLast? = some (Arg.s (slideFilename i))) := by
  intro cfg fonts oracle p
  refine ⟨rfl, ?_, ?_⟩
  · intro hnone
    simp only [render, renderBlocks]
    rw [renderLoop_ok_eq cfg fonts oracle p.slides 0 hnone]
  · intro i s _ hnone
    cases s with
    | text t o =>
      exact ⟨renderBackground cfg o ++
        renderTextArgs fonts (some t) o.foreground (scaledSize cfg none o.cover o.scale) ++
        [Arg.s (slideFilename i)], rfl, List.getLast?_concat _⟩
    | image pth t o =>
      simp only [renderSlideEffects] at hnone ⊢
      split at hnone
      · simp at hnone
      · rename_i tc heq
        exact ⟨renderBackground cfg o ++ renderImageArgs cfg pth o.cover ++ tc ++
          [Arg.s (slideFilename i)], by simp [List.getLast?], List.getLast?_concat _⟩
    | code pth o =>
      refine ⟨renderBackground cfg o ++
        [Arg.s ("-background").data, Arg.s ("transparent").data,
         Arg.s ("-gravity").data, Arg.s ("Center").data, Arg.s (codeFilename i),
         Arg.s ("-adaptive-resize").data, Arg.size (cfg.width : ℚ) (cfg.height : ℚ),
         Arg.s ("-extent").data, Arg.size (cfg.width : ℚ) (cfg.height : ℚ),
         Arg.s ("-composite").data, Arg.s (slideFilename i)],
        by simp [renderSlideEffects, renderCodeSlideEffects, List.getLast?], ?_⟩
      have : ∀ l : List Arg, (renderBackground cfg o ++ (l ++ [Arg.s (slideFilename i)])).getLast?
          = some (Arg.s (slideFilename i)) := by
        intro l
        rw [← List.append_assoc]
        exact List.getLast?_concat _
      exact this [Arg.s ("-background").data, Arg.s ("transparent").data,
        Arg.s ("-gravity").data, Arg.s ("Center").data, Arg.s (codeFilename i),
        Arg.s ("-adaptive-resize").data, Arg.size (cfg.width : ℚ) (cfg.height : ℚ),
        Arg.s ("-extent").data, Arg.size (cfg.width : ℚ) (cfg.height : ℚ),
        Arg.s ("-composite").data]

/-! ## C8 witness -/

def cfgW : Configuration := ⟨("deck.hs").data, (1920, 1080)⟩

def slideW : RSlide :=
  RSlide.text ("Hi").data ⟨("black").data, ("white").data, false, SlideStyle.default, 1⟩

def presW : RPresentation := ⟨[slideW]⟩

/-- Witness for C8 at a one-slide presentation. -/
theorem render_dir_and_order_witness :
    ((render cfgW [] (fun _ => (400, 300)) presW).1.take 2 =
      [Effect.rmtreeIfExists ("out").data, Effect.makedirs ("out").data]) ∧
    ((render cfgW [] (fun _ => (400, 300)) presW).1 =
      Effect.rmtreeIfExists ("out").data :: Effect.makedirs ("out").data ::
        (renderBlocks cfgW [] (fun _ => (400, 300)) presW).flatten) ∧
    (∃ cmd, (renderSlideEffects cfgW [] (fun _ => (400, 300)) slideW 0).1.getLast? =
      some (Effect.exec cmd) ∧ cmd.getLast? = some (Arg.s (slideFilename 0))) := by
  obtain ⟨h1, h2, h3⟩ := render_dir_and_order cfgW [] (fun _ => (400, 300)) presW
  exact ⟨h1, h2 rfl, h3 0 slideW rfl rfl⟩

/-! ## C6: directive-free input gives one text slide -/

theorem pySplitlines_ne_nil : ∀ {s : Str}, s ≠ [] → pySplitlines s ≠ [] := by
  intro s h
  cases s with
  | nil => exact absurd rfl h
  | cons c cs =>
    simp only [pySplitlines]
    by_cases hc : c = '\n'
    · simp [hc]
    · simp only [if_neg hc]
      cases pySplitlines cs <;> simp

theorem joinNl_cons {l : Str} {ls : List Str} (h : ls ≠ []) :
    joinNl (l :: ls) = l ++ '\n' :: joinNl ls := by
  cases ls with
  | nil => exact absurd rfl h
  | cons a as => rfl

theorem getLast?_cons_ne_nil {a : Char} {l : Str} (h : l ≠ []) :
    (a :: l).getLast? = l.getLast? := by
  cases l with
  | nil => exact absurd rfl h
  | cons b bs => exact List.getLast?_cons_cons

theorem dropLast_cons_ne_nil {a : Char} {l : Str} (h : l ≠ []) :
    (a :: l).dropLast = a :: l.dropLast := by
  cases l with
  | nil => exact absurd rfl h
  | cons b bs => exact List.dropLast_cons₂ ..

theorem pySplitlines_cons_nl (cs : Str) :
    pySplitlines ('\n' :: cs) = [] :: pySplitlines cs := by
  simp [pySplitlines]

theorem pySplitlines_cons_other {c : Char} (hc : ¬ c = '\n') {cs l : Str} {lss : List Str}
    (hsp : pySplitlines cs = l :: lss) : pySplitlines (c :: cs) = (c :: l) :: lss := by
  simp [pySplitlines, hc, hsp]

/-- Joining the split lines with LF recovers the input up to one trailing
newline: the round trip behind the single-text-slide property. -/
theorem joinNl_pySplitlines : ∀ {s : Str}, s ≠ [] →
    joinNl (pySplitlines s) = removeTrailingNl s := by
  intro s
  induction s with
  | nil => intro h; exact absurd rfl h
  | cons c cs ih =>
    intro _
    by_cases hc : c = '\n'
    · subst hc
      rw [pySplitlines_cons_nl]
      cases cs with
      | nil => rfl
      | cons d ds =>
        have hne : (d :: ds : Str) ≠ [] := List.cons_ne_nil d ds
        rw [joinNl_cons (pySplitlines_ne_nil hne), ih hne]
        simp only [List.nil_append]
        unfold removeTrailingNl
        rw [getLast?_cons_ne_nil hne]
        by_cases hlast : (d :: ds : Str).getLast? = some '\n'
        · rw [if_pos hlast, if_pos hlast, dropLast_cons_ne_nil hne]
        · rw [if_neg hlast, if_neg hlast]
    · cases cs with
      | nil =>
        have h1 : pySplitlines [c] = [[c]] := by simp [pySplitlines, hc]
        rw [h1]
        simp only [joinNl, removeTrailingNl, List.getLast?]
        rw [if_neg (by simp [hc])]
      | cons d ds =>
        have hne : (d :: ds : Str) ≠ [] := List.cons_ne_nil d ds
        cases hsp : pySplitlines (d :: ds) with
        | nil => exact absurd hsp (pySplitlines_ne_nil hne)
        | cons l lss =>
          rw [pySplitlines_cons_other hc hsp]
          have hj : joinNl ((c :: l) :: lss) = c :: joinNl (l :: lss) := by
            cases lss with
            | nil => rfl
            | cons x xs => simp [joinNl, List.cons_append]
          rw [hj, ← hsp, ih hne]
          unfold removeTrailingNl
          rw [getLast?_cons_ne_nil hne]
          by_cases hlast : (d :: ds : Str).getLast? = some '\n'
          · rw [if_pos hlast, if_pos hlast, dropLast_cons_ne_nil hne]
          · rw [if_neg hlast, if_neg hlast]

theorem splitIntoLines_values (src : Str) :
    (splitIntoLines src).map (fun l => l.value) = pySplitlines src := by
  rw [splitIntoLines, List.map_map]
  exact List.enum_map_snd _

theorem parseLine_plain {l : RawLine}
    (h1 : startsWithCh l.value '@' = false) (h2 : startsWithCh l.value ':' = false)
    (h3 : startsWithCh l.value '\\' = false) (h4 : l.value.all pyIsSpace = false) :
    parseLine l = .ok (.text l.value l.index) := by
  unfold parseLine
  rw [h1, h2, h3, h4]
  rfl

theorem splitIntoChunksGo_no_empty :
    ∀ {ms : List ParsedLine} (acc : List ParsedLine),
      (∀ l ∈ ms, l.isEmptyLine = false) →
      splitIntoChunksGo ms acc = if acc ++ ms = [] then [] else [acc ++ ms] := by
  intro ms
  induction ms with
  | nil => intro acc _; simp [splitIntoChunksGo]
  | cons l rest ih =>
    intro acc h
    have hl : l.isEmptyLine = false := h l (List.mem_cons_self l rest)
    simp only [splitIntoChunksGo, hl, Bool.false_eq_true, if_false]
    rw [ih (acc ++ [l]) (fun x hx => h x (List.mem_cons_of_mem l hx))]
    simp [List.append_assoc, List.append_eq_nil]

theorem splitIntoChunks_single {ms : List ParsedLine} (hne : ms ≠ [])
    (h : ∀ l ∈ ms, l.isEmptyLine = false) : splitIntoChunks ms = [ms] := by
  rw [splitIntoChunks, splitIntoChunksGo_no_empty [] h]
  simp [hne]

theorem parseOptionsGo_no_options :
    ∀ {ms : List ParsedLine} (o : SlideOptions), (∀ l ∈ ms, l.isOptionLine = false) →
      parseOptionsGo ms o = .ok (ms, o) := by
  intro ms
  induction ms with
  | nil => intro o _; rfl
  | cons l rest ih =>
    intro o h
    have hl := h l (List.mem_cons_self l rest)
    have hrest := ih o (fun x hx => h x (List.mem_cons_of_mem l hx))
    cases l with
    | option k a i => simp [ParsedLine.isOptionLine] at hl
    | empty i => simp [parseOptionsGo, hrest]
    | text t i => simp [parseOptionsGo, hrest]
    | includeImage p i => simp [parseOptionsGo, hrest]
    | includeCode p i => simp [parseOptionsGo, hrest]

theorem isImageChunk_texts (ls : List RawLine) :
    isImageChunk (ls.map (fun l => ParsedLine.text l.value l.index)) = false := by
  induction ls with
  | nil => rfl
  | cons l rest ih => simp [isImageChunk, ParsedLine.isImageInclude]

theorem isCodeChunk_texts (ls : List RawLine) :
    isCodeChunk (ls.map (fun l => ParsedLine.text l.value l.index)) = false := by
  induction ls with
  | nil => rfl
  | cons l rest ih => simp [isCodeChunk, ParsedLine.isCodeInclude]

theorem collectTexts_texts : ∀ (ls : List RawLine),
    collectTexts (ls.map (fun l => ParsedLine.text l.value l.index)) =
      .ok (ls.map (fun l => l.value)) := by
  intro ls
  induction ls with
  | nil => rfl
  | cons l rest ih => simp [collectTexts, ih]

theorem stripEscapeCharForLine_id {s : Str} (h : startsWithCh s '\\' = false) :
    stripEscapeCharForLine s = s := by
  cases s with
  | nil => rfl
  | cons c cs =>
    have hc : ¬ c = '\\' := by
      intro hcc
      rw [hcc] at h
      simp [startsWithCh] at h
    simp [stripEscapeCharForLine, hc]

theorem map_stripEscape_id : ∀ {ls : List Str},
    (∀ l ∈ ls, startsWithCh l '\\' = false) → ls.map stripEscapeCharForLine = ls := by
  intro ls
  induction ls with
  | nil => intro _; rfl
  | cons l rest ih =>
    intro h
    rw [List.map_cons, stripEscapeCharForLine_id (h l (List.mem_cons_self l rest)),
      ih (fun x hx => h x (List.mem_cons_of_mem l hx))]

theorem isOptionOnly_texts_false {ls : List RawLine} (hne : ls ≠ []) :
    isOptionOnlyChunk (ls.map (fun l => ParsedLine.text l.value l.index)) = false := by
  cases ls with
  | nil => exact absurd rfl hne
  | cons l rest => simp [isOptionOnlyChunk, ParsedLine.isOptionLine]

/-- Claim C6: a non-empty input with no blank lines and no directive lines
parses to exactly one text slide whose text is the input minus its trailing
newline, with fully resolved default options. -/
theorem parse_text_only :
    ∀ src : Str, src ≠ [] →
      (∀ l ∈ pySplitlines src,
        startsWithCh l '#' = false ∧ startsWithCh l '@' = false ∧
        startsWithCh l ':' = false ∧ startsWithCh l '\\' = false ∧
        l.all pyIsSpace = false) →
      parse src = .ok ⟨[Slide.text (removeTrailingNl src) DEFAULT_SLIDE_OPTIONS]⟩ := by
  intro src hne hl
  have hmemval : ∀ l ∈ splitIntoLines src, l.value ∈ pySplitlines src := by
    intro l hl2
    obtain ⟨q, hq, rfl⟩ := List.mem_map.mp hl2
    exact mem_enumFrom_snd _ 0 q hq
  have hfilter : filterComments (splitIntoLines src) = splitIntoLines src := by
    apply List.filter_eq_self.mpr
    intro l hl2
    have := (hl l.value (hmemval l hl2)).1
    simp [this]
  have hparsed : mapPRes parseLine (splitIntoLines src) =
      .ok ((splitIntoLines src).map (fun l => ParsedLine.text l.value l.index)) := by
    apply mapPRes_congr_ok
    intro l hl2
    obtain ⟨_, h2, h3, h4, h5⟩ := hl l.value (hmemval l hl2)
    exact parseLine_plain h2 h3 h4 h5
  have hlsne : splitIntoLines src ≠ [] := by
    rw [splitIntoLines]
    intro hnil
    simp only [List.map_eq_nil_iff, List.enum_eq_nil] at hnil
    exact pySplitlines_ne_nil hne hnil
  have hchunk1 : splitIntoChunks
      ((splitIntoLines src).map (fun l => ParsedLine.text l.value l.index)) =
      [(splitIntoLines src).map (fun l => ParsedLine.text l.value l.index)] := by
    apply splitIntoChunks_single
    · simp only [ne_eq, List.map_eq_nil_iff]
      exact hlsne
    · intro x hx
      obtain ⟨l, _, rfl⟩ := List.mem_map.mp hx
      rfl
  have hopts : parseOptions
      ((splitIntoLines src).map (fun l => ParsedLine.text l.value l.index)) =
      .ok ((splitIntoLines src).map (fun l => ParsedLine.text l.value l.index), {}) := by
    apply parseOptionsGo_no_options
    intro x hx
    obtain ⟨l, _, rfl⟩ := List.mem_map.mp hx
    rfl
  have hbuild : buildSlide
      ((splitIntoLines src).map (fun l => ParsedLine.text l.value l.index)) {} =
      .ok (Slide.text (removeTrailingNl src) {}) := by
    unfold buildSlide
    rw [isImageChunk_texts, isCodeChunk_texts]
    simp only [Bool.false_eq_true, if_false, collectTexts_texts]
    have hstrip : ((splitIntoLines src).map (fun l => l.value)).map stripEscapeCharForLine =
        (splitIntoLines src).map (fun l => l.value) := by
      apply map_stripEscape_id
      intro x hx
      obtain ⟨l, hlm, rfl⟩ := List.mem_map.mp hx
      exact (hl l.value (hmemval l hlm)).2.2.2.1
    simp only [stripEscapeCharAndJoin]
    rw [hstrip, splitIntoLines_values, joinNl_pySplitlines hne]
  have hslide : parseChunkToSlide
      ((splitIntoLines src).map (fun l => ParsedLine.text l.value l.index))
      (withFallback {} DEFAULT_SLIDE_OPTIONS) =
      .ok (Slide.text (removeTrailingNl src) DEFAULT_SLIDE_OPTIONS) := by
    unfold parseChunkToSlide
    simp only [hopts, hbuild]
    rfl
  have hp1 : parse src = parseChunks (splitIntoChunks
      ((splitIntoLines src).map (fun l => ParsedLine.text l.value l.index))) := by
    unfold parse
    rw [hfilter, hparsed]
  rw [hp1, hchunk1]
  simp only [parseChunks, isOptionOnly_texts_false hlsne, Bool.false_eq_true, if_false]
  unfold assembleSlides
  simp only [mapPRes, hslide]

/-- Witness for C6 at the Example 1 input Hello. -/
theorem parse_text_only_witness :
    parse ("Hello\n").data = .ok ⟨[Slide.text (removeTrailingNl ("Hello\n").data)
      DEFAULT_SLIDE_OPTIONS]⟩ :=
  parse_text_only (("Hello\n").data) (by decide) (by decide)

end Hackerslides
